import Mathlib

/-!
Shallow embedding of winpack (src/winpack.py), a branch-based package
installer, together with theorems settling the specification claims.

The filesystem under the packages directory is modelled as an association
list from package name to the package's directory contents.  The remote
repository branch being fetched is modelled by the list of blob paths in
its git tree plus the decoded content of its pack.json blob (if any).
External collaborators are modelled at their interface: the script runner
receives an environment mapping each command string to its exit status,
and the external packaging.version parser is modelled for plain release
versions (dot-separated decimal components; any other string fails to
parse, as packaging raises InvalidVersion on specifier syntax).
-/

namespace Winpack

/-- A dependency entry of a manifest, as read by install_dependencies via
dep.get("name") and dep.get("version"). -/
structure Dep where
  name : Option String
  version : Option String
deriving DecidableEq

/-- A decoded pack.json manifest, restricted to the fields the engine
reads: version, dependencies and the scripts mapping (ordinal key to
command).  A field whose key is absent is none / empty. -/
structure Manifest where
  version : Option String
  dependencies : List Dep
  scripts : Option (List (Nat × String))
deriving DecidableEq

/-- What a pack.json file on disk (or a fetched pack.json blob) decodes
to: either malformed JSON or a manifest. -/
inductive JsonFile
  | invalid
  | valid (m : Manifest)
deriving DecidableEq

/-- One installed package directory under packages: the extracted file
paths other than pack.json, and the state of its pack.json. -/
structure PkgDir where
  files : List String
  packJson : Option JsonFile
deriving DecidableEq

/-- The packages directory: package name to its directory; a name with no
binding is a directory that does not exist. -/
abbrev FS := List (String × PkgDir)

/-- Directory lookup, modelling os.path.exists plus reads under
packages/(name). -/
def fsFind : FS → String → Option PkgDir
  | [], _ => none
  | p :: ps, name => if p.1 = name then some p.2 else fsFind ps name

/-- Create or replace the directory bound to a name. -/
def fsSet : FS → String → PkgDir → FS
  | [], name, d => [(name, d)]
  | p :: ps, name, d => if p.1 = name then (name, d) :: ps else p :: fsSet ps name d

/-- Recursive delete of a package directory (uninstall's effect on the
model). -/
def fsRemove (fs : FS) (name : String) : FS :=
  fs.filter (fun p => p.1 ≠ name)

/-- The pack.json of packages/(name): none when the directory or the file
is absent. -/
def readPackJson (fs : FS) (name : String) : Option JsonFile :=
  match fsFind fs name with
  | none => none
  | some d => d.packJson

/-- Split a character list into the groups between dots. -/
def splitDots : List Char → List (List Char)
  | [] => [[]]
  | c :: cs =>
    if c = '.' then [] :: splitDots cs
    else
      match splitDots cs with
      | [] => [[c]]
      | g :: gs => (c :: g) :: gs

/-- The numeric value of a decimal digit character, none otherwise. -/
def digitVal (c : Char) : Option Nat :=
  if '0' ≤ c ∧ c ≤ '9' then some (c.toNat - '0'.toNat) else none

/-- Accumulate a decimal numeral left to right; any non-digit fails. -/
def parseNatAux : List Char → Nat → Option Nat
  | [], acc => some acc
  | c :: cs, acc =>
    match digitVal c with
    | none => none
    | some d => parseNatAux cs (acc * 10 + d)

/-- A nonempty all-digit group parses to its decimal value. -/
def parseNatChars : List Char → Option Nat
  | [] => none
  | c :: cs => parseNatAux (c :: cs) 0

/-- Model of the external packaging.version parser on plain release
versions: dot-separated decimal numerals.  Specifier syntax such as a
leading comparison operator does not parse (packaging raises
InvalidVersion there, which winpack never catches). -/
def parseVersion (s : String) : Option (List Nat) :=
  (splitDots s.data).mapM parseNatChars

/-- Strict ordering of an empty release tuple against another tuple: the
empty side is all zero padding. -/
def verLtNil : List Nat → Bool
  | [] => false
  | b :: bs => if 0 < b then true else verLtNil bs

/-- Release-tuple strict ordering used by packaging.version: compare
component-wise, padding the shorter tuple with zeros. -/
def verLt : List Nat → List Nat → Bool
  | [], bs => verLtNil bs
  | a :: as, [] => if a = 0 then verLt as [] else false
  | a :: as, b :: bs => if a < b then true else if a = b then verLt as bs else false

/-- The version-constraint check inlined in install_dependencies:
if dep_version is truthy, parse it and the candidate and require
candidate not lower than the constraint; a falsy constraint always
passes; an unparsable string is an uncaught InvalidVersion, modelled as
none. -/
def satisfies (packVersion : String) (constraint : Option String) : Option Bool :=
  match constraint with
  | none => some true
  | some c =>
    if c = "" then some true
    else
      match parseVersion c with
      | none => none
      | some cv =>
        match parseVersion packVersion with
        | none => none
        | some pv => some (!(verLt pv cv))

/-- One iteration of the install_dependencies loop for a single entry:
some true means the loop continues, some false means return False, none
means an uncaught exception.  An entry whose name is falsy is skipped
with no check at all. -/
def depCheck (fs : FS) (dep : Dep) : Option Bool :=
  match dep.name with
  | none => some true
  | some n =>
    if n = "" then some true
    else
      match readPackJson fs n with
      | none => some false
      | some .invalid => some false
      | some (.valid pack) =>
        match pack.version with
        | none => some false
        | some pv =>
          if pv = "" then some false
          else satisfies pv dep.version

/-- install_dependencies (winpack.py lines 29-54): check every entry in
order against the local packages directory; the first failing entry
returns False at once; success only after every entry passes or is
skipped.  No fetching or recursion happens here. -/
def install_dependencies (fs : FS) : List Dep → Option Bool
  | [] => some true
  | dep :: rest =>
    match depCheck fs dep with
    | none => none
    | some false => some false
    | some true => install_dependencies fs rest

/-- A remote branch of the source repository: blob paths of its git tree
other than pack.json, and the decoded pack.json blob when the tree has
one. -/
structure RemoteBranch where
  files : List String
  packJson : Option JsonFile
deriving DecidableEq

/-- File-set union keeping one copy of each path: fetching overwrites a
path that already exists and leaves other existing files in place. -/
def mergeFiles (old new : List String) : List String :=
  old.filter (fun f => !(new.contains f)) ++ new

/-- Effect on the packages directory of downloading every tree item of a
branch into packages/(branch) (get_item over the recursive git tree):
files are written over the existing directory, nothing is deleted first,
and pack.json is replaced only when the remote tree has one. -/
def fetchBranch (fs : FS) (branch : String) (rb : RemoteBranch) : FS :=
  let old := (fsFind fs branch).getD ⟨[], none⟩
  fsSet fs branch
    ⟨mergeFiles old.files rb.files,
      match rb.packJson with
      | some j => some j
      | none => old.packJson⟩

/-- Python return value of get_branch_contents: the bare return on the
already-resolved path yields None; pyRaise stands for an uncaught
exception propagating out. -/
inductive PyReturn
  | pyNone
  | pyTrue
  | pyFalse
  | pyRaise
deriving DecidableEq

/-- get_branch_contents (winpack.py lines 83-120): skip with a bare
return (None) when the branch is in the resolved set; otherwise download
the tree, then read packages/(branch)/pack.json: a missing file is only
warned about and the function returns True; a decode failure returns
False; otherwise the dependency check decides the result. -/
def get_branch_contents (fs : FS) (branch : String) (rb : RemoteBranch)
    (resolved : List String) : FS × PyReturn :=
  if branch ∈ resolved then (fs, .pyNone)
  else
    let fs2 := fetchBranch fs branch rb
    match readPackJson fs2 branch with
    | none => (fs2, .pyTrue)
    | some .invalid => (fs2, .pyFalse)
    | some (.valid pkg) =>
      match install_dependencies fs2 pkg.dependencies with
      | none => (fs2, .pyRaise)
      | some false => (fs2, .pyFalse)
      | some true => (fs2, .pyTrue)

/-- Stable-enough insertion for sorting script entries by numeric key,
modelling sorted(scripts.items(), key=int of the key). -/
def insertByKey (p : Nat × String) : List (Nat × String) → List (Nat × String)
  | [] => [p]
  | q :: qs => if p.1 < q.1 then p :: q :: qs else q :: insertByKey p qs

/-- Ascending sort of script entries by their numeric ordinal key. -/
def sortByKey : List (Nat × String) → List (Nat × String)
  | [] => []
  | p :: ps => insertByKey p (sortByKey ps)

/-- run_script (winpack.py lines 171-189): read the package's pack.json;
missing or malformed gives 0; a manifest without a scripts key gives 2;
otherwise every script runs once in ascending numeric key order through
os.system, whose exit status is discarded, and the function returns 1.
The first component is the trace of commands executed; the environment
giving each command its exit status is accepted but, exactly as in the
source, never consulted. -/
def run_script (_exitOf : String → Nat) (fs : FS) (package : String) :
    List String × Nat :=
  match readPackJson fs package with
  | none => ([], 0)
  | some .invalid => ([], 0)
  | some (.valid pack) =>
    match pack.scripts with
    | none => ([], 2)
    | some scripts => ((sortByKey scripts).map Prod.snd, 1)

/-- Outcome of the install command. -/
inductive InstallRes
  | installedOk
  | installedNoScriptMsg
  | scriptLookupFailed
  | fetchFailed
  | raised
deriving DecidableEq

/-- The install CLI command (winpack.py lines 208-221): run
get_branch_contents with a fresh resolved set; on a truthy result, the
condition of the if calls run_script once and, when that is nonzero, the
elif condition calls run_script again; only a 0 result (missing or
malformed manifest) triggers uninstall, while a falsy fetch result also
triggers uninstall.  The middle component is the concatenated trace of
executed script commands. -/
def install (exitOf : String → Nat) (fs : FS) (rb : RemoteBranch)
    (package : String) : FS × List String × InstallRes :=
  let r := get_branch_contents fs package rb []
  match r.2 with
  | .pyTrue =>
    let s1 := run_script exitOf r.1 package
    if s1.2 = 0 then (fsRemove r.1 package, s1.1, .scriptLookupFailed)
    else
      let s2 := run_script exitOf r.1 package
      if s2.2 = 1 then (r.1, s1.1 ++ s2.1, .installedOk)
      else (r.1, s1.1 ++ s2.1, .installedNoScriptMsg)
  | .pyRaise => (r.1, [], .raised)
  | _ => (fsRemove r.1 package, [], .fetchFailed)

/-- Outcome reported by the update function. -/
inductive UpdateRes
  | noBranch
  | noLocalPackJson
  | noLocalVersion
  | upToDate
  | updating (r : PyReturn)
  | noRemotePackJson
  | raised
deriving DecidableEq

/-- update (winpack.py lines 122-157): require the local directory, its
pack.json and a version key; find pack.json in the remote tree (absence
is the only error path); decode it; then only when the remote version is
truthy and strictly greater than the local one re-fetch the branch in
place via get_branch_contents, else report up to date.  Unparsable
versions and a malformed local or remote pack.json raise uncaught
exceptions. -/
def update (fs : FS) (branch : String) (rb : RemoteBranch) : FS × UpdateRes :=
  match fsFind fs branch with
  | none => (fs, .noBranch)
  | some d =>
    match d.packJson with
    | none => (fs, .noLocalPackJson)
    | some .invalid => (fs, .raised)
    | some (.valid pack) =>
      match pack.version with
      | none => (fs, .noLocalVersion)
      | some localVersion =>
        match rb.packJson with
        | none => (fs, .noRemotePackJson)
        | some .invalid => (fs, .raised)
        | some (.valid rpack) =>
          match rpack.version with
          | none => (fs, .upToDate)
          | some rv =>
            if rv = "" then (fs, .upToDate)
            else
              match parseVersion localVersion, parseVersion rv with
              | some lv, some rvv =>
                if verLt lv rvv then
                  let r := get_branch_contents fs branch rb []
                  (r.1, .updating r.2)
                else (fs, .upToDate)
              | _, _ => (fs, .raised)

/-! ## Specification-side ordering on release tuples

An independent statement of standard semantic-version component
comparison: the candidate is strictly lower exactly when, at the first
index where the zero-padded components differ, its component is smaller.
-/

/-- The i-th component of a release tuple, zero past the end
(zero padding). -/
def comp (a : List Nat) (i : Nat) : Nat := a.getD i 0

/-- Standard component-wise strict comparison of release tuples. -/
def specLt (a b : List Nat) : Prop :=
  ∃ i, comp a i < comp b i ∧ ∀ j, j < i → comp a j = comp b j

@[simp] theorem comp_nil (i : Nat) : comp ([] : List Nat) i = 0 := by
  cases i <;> rfl

@[simp] theorem comp_cons_zero (a : Nat) (as : List Nat) : comp (a :: as) 0 = a := rfl

@[simp] theorem comp_cons_succ (a : Nat) (as : List Nat) (i : Nat) :
    comp (a :: as) (i + 1) = comp as i := rfl

theorem not_specLt_nil (a : List Nat) : ¬ specLt a [] := by
  rintro ⟨i, hlt, -⟩
  rw [comp_nil] at hlt
  exact absurd hlt (Nat.not_lt_zero _)

theorem specLt_cons_iff (a b : Nat) (as bs : List Nat) :
    specLt (a :: as) (b :: bs) ↔ a < b ∨ (a = b ∧ specLt as bs) := by
  constructor
  · rintro ⟨i, hlt, hpre⟩
    cases i with
    | zero => exact Or.inl (by simpa using hlt)
    | succ i =>
      refine Or.inr ⟨by simpa using hpre 0 (Nat.succ_pos _), i, by simpa using hlt, ?_⟩
      intro j hj
      simpa using hpre (j + 1) (by omega)
  · rintro (h | ⟨rfl, i, hlt, hpre⟩)
    · exact ⟨0, by simpa using h, fun j hj => absurd hj (Nat.not_lt_zero _)⟩
    · refine ⟨i + 1, by simpa using hlt, ?_⟩
      intro j hj
      cases j with
      | zero => simp
      | succ j => simpa using hpre j (by omega)

theorem specLt_nil_cons_iff (b : Nat) (bs : List Nat) :
    specLt [] (b :: bs) ↔ 0 < b ∨ (b = 0 ∧ specLt [] bs) := by
  constructor
  · rintro ⟨i, hlt, hpre⟩
    cases i with
    | zero => exact Or.inl (by simpa using hlt)
    | succ i =>
      refine Or.inr ⟨by simpa using (hpre 0 (Nat.succ_pos _)).symm, i, by simpa using hlt, ?_⟩
      intro j hj
      simpa using (hpre (j + 1) (by omega))
  · rintro (h | ⟨hb, i, hlt, hpre⟩)
    · exact ⟨0, by simpa using h, fun j hj => absurd hj (Nat.not_lt_zero _)⟩
    · refine ⟨i + 1, by simpa using hlt, ?_⟩
      intro j hj
      cases j with
      | zero => simpa using hb.symm
      | succ j => simpa using hpre j (by omega)

theorem verLtNil_iff (bs : List Nat) : verLtNil bs = true ↔ specLt [] bs := by
  induction bs with
  | nil =>
    rw [verLtNil]
    simp only [Bool.false_eq_true, false_iff]
    exact not_specLt_nil []
  | cons b bs ih =>
    rw [verLtNil, specLt_nil_cons_iff]
    by_cases h : 0 < b
    · simp [h]
    · have hb : b = 0 := by omega
      subst hb
      simp [ih]

theorem verLt_nil_right (as : List Nat) : verLt as [] = false := by
  induction as with
  | nil => rfl
  | cons a as ih =>
    rw [verLt]
    by_cases h : a = 0
    · simp [h, ih]
    · simp [h]

/-- The executable release-tuple ordering agrees with the standard
component-wise comparison. -/
theorem verLt_iff (a b : List Nat) : verLt a b = true ↔ specLt a b := by
  induction a generalizing b with
  | nil => exact verLtNil_iff b
  | cons x as ih =>
    cases b with
    | nil =>
      rw [verLt_nil_right]
      simp only [Bool.false_eq_true, false_iff]
      exact not_specLt_nil _
    | cons y bs =>
      rw [verLt, specLt_cons_iff]
      by_cases h1 : x < y
      · simp [h1]
      · by_cases h2 : x = y
        · simp [h1, h2, ih bs]
        · simp [h1, h2]

/-! ## Helper lemmas about the filesystem model -/

theorem fsFind_fsSet_self (fs : FS) (name : String) (d : PkgDir) :
    fsFind (fsSet fs name d) name = some d := by
  induction fs with
  | nil => simp [fsSet, fsFind]
  | cons p ps ih =>
    by_cases h : p.1 = name
    · simp [fsSet, fsFind, h]
    · simp [fsSet, fsFind, h, ih]

theorem mergeFiles_nil_left (new : List String) : mergeFiles [] new = new := by
  simp [mergeFiles]

theorem mem_mergeFiles_left (old new : List String) (f : String) (h : f ∈ old) :
    f ∈ mergeFiles old new := by
  by_cases hn : f ∈ new
  · exact List.mem_append_right _ hn
  · refine List.mem_append_left _ ?_
    rw [List.mem_filter]
    refine ⟨h, ?_⟩
    simp [List.contains, List.elem_eq_mem, hn]

/-- The downloading phase of get_branch_contents returns the fetched
filesystem in every outcome. -/
theorem get_branch_contents_fst (fs : FS) (b : String) (rb : RemoteBranch) :
    (get_branch_contents fs b rb []).1 = fetchBranch fs b rb := by
  unfold get_branch_contents
  rw [if_neg (List.not_mem_nil b)]
  cases h : readPackJson (fetchBranch fs b rb) b with
  | none => simp [h]
  | some j =>
    cases j with
    | invalid => simp [h]
    | valid pkg =>
      cases h2 : install_dependencies (fetchBranch fs b rb) pkg.dependencies with
      | none => simp [h, h2]
      | some v => cases v <;> simp [h, h2]

/-! ## Claims -/

/-- C1 (code bug): rollback on script failure does not happen.  The
package "demo" is installed with a manifest declaring the single script
"boom", in an environment where every command exits with status 1
(failure).  run_script discards the exit status os.system returns and
reports 1 (success) whenever a scripts key exists, so install reports a
fully successful install and the packages/demo directory still exists
afterward, contradicting the claimed uninstall-on-script-failure. -/
theorem c1_script_failure_no_rollback :
    install (fun _ => 1) []
        ⟨[], some (.valid ⟨some "1.0.0", [], some [(1, "boom")]⟩)⟩ "demo" =
      ([("demo", ⟨[], some (.valid ⟨some "1.0.0", [], some [(1, "boom")]⟩)⟩)],
        ["boom", "boom"], .installedOk) ∧
    (fsFind (install (fun _ => 1) []
        ⟨[], some (.valid ⟨some "1.0.0", [], some [(1, "boom")]⟩)⟩ "demo").1
        "demo").isSome = true := ⟨rfl, rfl⟩

/-- C2 counterexample: with an empty local packages directory, a list
declaring the single dependency "a" makes install_dependencies return
False at once.  No recursive fetch or install of the missing dependency
is attempted — the dependency check never touches the remote repository
— refuting the claimed recursive resolution of absent dependencies. -/
theorem c2_counterexample :
    install_dependencies [] [⟨some "a", none⟩] = some false := rfl

/-- C2 amended: a declared dependency that is not locally present makes
the whole dependency check fail immediately: after any prefix of passing
entries, reaching the missing dependency returns False no matter what
entries follow, and no recursive resolution is attempted. -/
theorem c2_missing_dep_fails_immediately (fs : FS) (d : Dep) (n : String)
    (hn : d.name = some n) (hne : n ≠ "") (hmiss : readPackJson fs n = none) :
    ∀ pre rest, install_dependencies fs pre = some true →
      install_dependencies fs (pre ++ d :: rest) = some false := by
  intro pre
  induction pre with
  | nil =>
    intro rest _
    simp [install_dependencies, depCheck, hn, hne, hmiss]
  | cons p ps ih =>
    intro rest hpre
    rw [List.cons_append]
    rw [install_dependencies] at hpre ⊢
    cases hdc : depCheck fs p with
    | none => simp [hdc] at hpre
    | some v =>
      cases v with
      | false => simp [hdc] at hpre
      | true =>
        rw [hdc] at hpre
        exact ih rest hpre

/-- Witness for the amended C2 at a concrete input. -/
theorem c2_witness :
    install_dependencies []
        ([] ++ (⟨some "a", none⟩ : Dep) :: [⟨some "b", none⟩]) = some false :=
  c2_missing_dep_fails_immediately [] ⟨some "a", none⟩ "a" rfl (by decide) rfl
    [] [⟨some "b", none⟩] rfl

/-- C3 counterexample: installing "app", whose manifest declares the two
locally present dependencies "a" and "b", succeeds — yet the resulting
package directory holds exactly the fetched remote file and manifest.
No lockfile recording the resolved dependency versions is written at the
package root or anywhere else. -/
theorem c3_counterexample :
    install (fun _ => 0)
        [("a", ⟨[], some (.valid ⟨some "1.0.0", [], none⟩)⟩),
         ("b", ⟨[], some (.valid ⟨some "2.0.0", [], none⟩)⟩)]
        ⟨["src/main.txt"],
          some (.valid ⟨some "1.0.0", [⟨some "a", none⟩, ⟨some "b", none⟩], none⟩)⟩
        "app" =
      ([("a", ⟨[], some (.valid ⟨some "1.0.0", [], none⟩)⟩),
        ("b", ⟨[], some (.valid ⟨some "2.0.0", [], none⟩)⟩),
        ("app", ⟨["src/main.txt"],
          some (.valid ⟨some "1.0.0", [⟨some "a", none⟩, ⟨some "b", none⟩], none⟩)⟩)],
        [], .installedNoScriptMsg) := rfl

/-- C3 amended: install persists no lockfile.  A successful fresh install
leaves the package directory containing exactly the remote tree's files
and the remote manifest and nothing more; the resolved versions of the
dependencies are recorded nowhere. -/
theorem c3_install_writes_only_fetched_files (exitOf : String → Nat) (fs : FS)
    (rb : RemoteBranch) (p : String) (m : Manifest)
    (hfresh : fsFind fs p = none) (hm : rb.packJson = some (.valid m))
    (hdeps : install_dependencies (fetchBranch fs p rb) m.dependencies = some true) :
    fsFind (install exitOf fs rb p).1 p = some ⟨rb.files, some (.valid m)⟩ := by
  have hfetch : fetchBranch fs p rb = fsSet fs p ⟨rb.files, some (.valid m)⟩ := by
    unfold fetchBranch
    rw [hfresh, hm]
    simp [mergeFiles_nil_left]
  have hread : readPackJson (fsSet fs p ⟨rb.files, some (.valid m)⟩) p =
      some (.valid m) := by
    simp [readPackJson, fsFind_fsSet_self]
  have hdeps2 : install_dependencies (fsSet fs p ⟨rb.files, some (.valid m)⟩)
      m.dependencies = some true := hfetch ▸ hdeps
  have hgbc : get_branch_contents fs p rb [] =
      (fsSet fs p ⟨rb.files, some (.valid m)⟩, .pyTrue) := by
    unfold get_branch_contents
    rw [if_neg (List.not_mem_nil p), hfetch]
    simp [hread, hdeps2]
  unfold install
  rw [hgbc]
  cases hscr : m.scripts with
  | none => simp [run_script, hread, hscr, fsFind_fsSet_self]
  | some s => simp [run_script, hread, hscr, fsFind_fsSet_self]

/-- Witness for the amended C3 at a concrete input. -/
theorem c3_witness :
    fsFind (install (fun _ => 0)
        [("a", ⟨[], some (.valid ⟨some "1.0.0", [], none⟩)⟩),
         ("b", ⟨[], some (.valid ⟨some "2.0.0", [], none⟩)⟩)]
        ⟨["docs/readme.txt"],
          some (.valid ⟨some "3.0.0", [⟨some "a", none⟩, ⟨some "b", none⟩], none⟩)⟩
        "app").1 "app" =
      some ⟨["docs/readme.txt"],
        some (.valid ⟨some "3.0.0", [⟨some "a", none⟩, ⟨some "b", none⟩], none⟩)⟩ :=
  c3_install_writes_only_fetched_files (fun _ => 0)
    [("a", ⟨[], some (.valid ⟨some "1.0.0", [], none⟩)⟩),
     ("b", ⟨[], some (.valid ⟨some "2.0.0", [], none⟩)⟩)]
    ⟨["docs/readme.txt"],
      some (.valid ⟨some "3.0.0", [⟨some "a", none⟩, ⟨some "b", none⟩], none⟩)⟩
    "app" ⟨some "3.0.0", [⟨some "a", none⟩, ⟨some "b", none⟩], none⟩
    rfl rfl rfl

/-- C4 counterexample: the claim's own example fails.  The code hands the
whole constraint string to the version parser, which rejects operator
syntax, so checking the constraint ">=1.1.0" against candidate "1.2.0"
raises an uncaught InvalidVersion (modelled none) instead of being
true. -/
theorem c4_counterexample :
    satisfies "1.2.0" (some ">=1.1.0") = none ∧
      satisfies "1.2.0" (some ">=1.1.0") ≠ some true := ⟨rfl, by decide⟩

/-- C4 amended: a constraint is a bare version string with at-least
semantics.  For versions that both parse, satisfaction agrees exactly
with standard component-wise comparison: the check succeeds iff the
candidate is not strictly below the constraint version, and fails iff it
is; an absent constraint always satisfies.  Operator syntax is
unsupported (see the counterexample). -/
theorem c4_satisfies_at_least_semantics (v c : String) (vv cv : List Nat)
    (hv : parseVersion v = some vv) (hc : parseVersion c = some cv) :
    (satisfies v (some c) = some true ↔ ¬ specLt vv cv) ∧
    (satisfies v (some c) = some false ↔ specLt vv cv) ∧
    satisfies v none = some true := by
  have hcne : c ≠ "" := by
    intro h
    rw [h, show parseVersion "" = none from rfl] at hc
    cases hc
  have hiff := verLt_iff vv cv
  cases hvl : verLt vv cv with
  | false =>
    have hns : ¬ specLt vv cv := by
      intro hs
      have h2 := hiff.mpr hs
      rw [hvl] at h2
      exact Bool.noConfusion h2
    refine ⟨?_, ?_, rfl⟩ <;> simp [satisfies, hcne, hc, hv, hvl, hns]
  | true =>
    have hs : specLt vv cv := hiff.mp hvl
    refine ⟨?_, ?_, rfl⟩ <;> simp [satisfies, hcne, hc, hv, hvl, hs]

/-- Witness for the amended C4 at the spec's example versions. -/
theorem c4_witness :
    (satisfies "1.2.0" (some "1.1.0") = some true ↔ ¬ specLt [1, 2, 0] [1, 1, 0]) ∧
    (satisfies "1.2.0" (some "1.1.0") = some false ↔ specLt [1, 2, 0] [1, 1, 0]) ∧
    satisfies "1.2.0" none = some true :=
  c4_satisfies_at_least_semantics "1.2.0" "1.1.0" [1, 2, 0] [1, 1, 0] rfl rfl

/-- C5 (code bug): scripts are executed twice on a successful install,
not once.  Installing "demo" with two scripts keyed 1 and 2 (declared in
descending key order) produces the execution trace a, b, a, b: each
script runs in ascending ordinal order within one run_script call, but
install calls run_script both in its if condition and again in its elif
condition, so every script runs a second time. -/
theorem c5_scripts_run_twice :
    (install (fun _ => 0) []
        ⟨[], some (.valid ⟨some "1.0.0", [], some [(2, "b"), (1, "a")]⟩)⟩
        "demo").2.1 = ["a", "b", "a", "b"] := rfl

/-- C6 counterexample: branch "b" is installed at version "1.0.0" and the
remote pack.json decodes but carries no version key.  update reports up
to date and leaves the filesystem unchanged, whereas the claim demands a
hard NoRemoteManifest failure. -/
theorem c6_counterexample :
    update [("b", ⟨[], some (.valid ⟨some "1.0.0", [], none⟩)⟩)] "b"
        ⟨[], some (.valid ⟨none, [], none⟩)⟩ =
      ([("b", ⟨[], some (.valid ⟨some "1.0.0", [], none⟩)⟩)], .upToDate) := rfl

/-- C6 amended: with a locally installed, versioned branch, a remote
manifest that decodes but declares no version makes update report up to
date with no filesystem change; only a remote tree with no pack.json at
all is reported as an error. -/
theorem c6_versionless_remote_up_to_date (fs : FS) (b : String)
    (rb : RemoteBranch) (d : PkgDir) (pack rpack : Manifest) (lv : String)
    (h1 : fsFind fs b = some d) (h2 : d.packJson = some (.valid pack))
    (h3 : pack.version = some lv) (h4 : rb.packJson = some (.valid rpack))
    (h5 : rpack.version = none) :
    update fs b rb = (fs, .upToDate) := by
  simp only [update, h1, h2, h3, h4, h5]

/-- Witness for the amended C6 at a concrete input. -/
theorem c6_witness :
    update [("b", ⟨["f.txt"], some (.valid ⟨some "1.0.0", [], none⟩)⟩)] "b"
        ⟨["g.txt"], some (.valid ⟨none, [], none⟩)⟩ =
      ([("b", ⟨["f.txt"], some (.valid ⟨some "1.0.0", [], none⟩)⟩)], .upToDate) :=
  c6_versionless_remote_up_to_date
    [("b", ⟨["f.txt"], some (.valid ⟨some "1.0.0", [], none⟩)⟩)] "b"
    ⟨["g.txt"], some (.valid ⟨none, [], none⟩)⟩
    ⟨["f.txt"], some (.valid ⟨some "1.0.0", [], none⟩)⟩
    ⟨some "1.0.0", [], none⟩ ⟨none, [], none⟩ "1.0.0" rfl rfl rfl rfl rfl

/-- C7 counterexample: updating branch "b" from local 1.0.0 to remote
1.1.0 is not equivalent to uninstall plus install: the stale file
old.txt, absent from the remote tree, survives the update, while an
actual uninstall followed by install leaves only new.txt. -/
theorem c7_counterexample :
    (fsFind (update [("b", ⟨["old.txt"], some (.valid ⟨some "1.0.0", [], none⟩)⟩)]
        "b" ⟨["new.txt"], some (.valid ⟨some "1.1.0", [], none⟩)⟩).1 "b" =
      some ⟨["old.txt", "new.txt"], some (.valid ⟨some "1.1.0", [], none⟩)⟩) ∧
    (fsFind (install (fun _ => 0)
        (fsRemove [("b", ⟨["old.txt"], some (.valid ⟨some "1.0.0", [], none⟩)⟩)] "b")
        ⟨["new.txt"], some (.valid ⟨some "1.1.0", [], none⟩)⟩ "b").1 "b" =
      some ⟨["new.txt"], some (.valid ⟨some "1.1.0", [], none⟩)⟩) := ⟨rfl, rfl⟩

/-- C7 amended: with a versioned local install and a versioned, parseable
remote manifest, update re-fetches the branch contents in place when the
remote version is strictly greater — the result is the fetched merge
over the existing directory, so every file already present survives —
and otherwise it reports up to date with no filesystem change. -/
theorem c7_update_refetch_in_place (fs : FS) (b : String) (rb : RemoteBranch)
    (d : PkgDir) (pack rpack : Manifest) (lv rv : String) (lvv rvv : List Nat)
    (h1 : fsFind fs b = some d) (h2 : d.packJson = some (.valid pack))
    (h3 : pack.version = some lv) (h4 : rb.packJson = some (.valid rpack))
    (h5 : rpack.version = some rv) (h6 : rv ≠ "")
    (h7 : parseVersion lv = some lvv) (h8 : parseVersion rv = some rvv) :
    (verLt lvv rvv = true →
      (update fs b rb).1 = fetchBranch fs b rb ∧
      (update fs b rb).2 = .updating (get_branch_contents fs b rb []).2 ∧
      ∀ f ∈ d.files, f ∈ ((fsFind (update fs b rb).1 b).getD ⟨[], none⟩).files) ∧
    (verLt lvv rvv = false → update fs b rb = (fs, .upToDate)) := by
  have hfetchfind : fsFind (fetchBranch fs b rb) b =
      some ⟨mergeFiles d.files rb.files, some (.valid rpack)⟩ := by
    unfold fetchBranch
    rw [h1, h4]
    simp [fsFind_fsSet_self]
  constructor
  · intro hlt
    have hupd : update fs b rb =
        ((get_branch_contents fs b rb []).1,
          .updating (get_branch_contents fs b rb []).2) := by
      simp [update, h1, h2, h3, h4, h5, h6, h7, h8, hlt]
    rw [hupd]
    refine ⟨get_branch_contents_fst fs b rb, rfl, ?_⟩
    intro f hf
    rw [get_branch_contents_fst fs b rb, hfetchfind]
    exact mem_mergeFiles_left d.files rb.files f hf
  · intro hlt
    simp [update, h1, h2, h3, h4, h5, h6, h7, h8, hlt]

/-- Witness for the amended C7 at a concrete input. -/
theorem c7_witness :
    (verLt [1, 0, 0] [1, 1, 0] = true →
      (update [("b", ⟨["keep.txt"], some (.valid ⟨some "1.0.0", [], none⟩)⟩)] "b"
          ⟨[], some (.valid ⟨some "1.1.0", [], none⟩)⟩).1 =
        fetchBranch [("b", ⟨["keep.txt"], some (.valid ⟨some "1.0.0", [], none⟩)⟩)]
          "b" ⟨[], some (.valid ⟨some "1.1.0", [], none⟩)⟩ ∧
      (update [("b", ⟨["keep.txt"], some (.valid ⟨some "1.0.0", [], none⟩)⟩)] "b"
          ⟨[], some (.valid ⟨some "1.1.0", [], none⟩)⟩).2 =
        .updating (get_branch_contents
          [("b", ⟨["keep.txt"], some (.valid ⟨some "1.0.0", [], none⟩)⟩)] "b"
          ⟨[], some (.valid ⟨some "1.1.0", [], none⟩)⟩ []).2 ∧
      ∀ f ∈ (⟨["keep.txt"], some (.valid ⟨some "1.0.0", [], none⟩)⟩ : PkgDir).files,
        f ∈ ((fsFind (update
            [("b", ⟨["keep.txt"], some (.valid ⟨some "1.0.0", [], none⟩)⟩)] "b"
            ⟨[], some (.valid ⟨some "1.1.0", [], none⟩)⟩).1 "b").getD
          ⟨[], none⟩).files) ∧
    (verLt [1, 0, 0] [1, 1, 0] = false →
      update [("b", ⟨["keep.txt"], some (.valid ⟨some "1.0.0", [], none⟩)⟩)] "b"
          ⟨[], some (.valid ⟨some "1.1.0", [], none⟩)⟩ =
        ([("b", ⟨["keep.txt"], some (.valid ⟨some "1.0.0", [], none⟩)⟩)],
          .upToDate)) :=
  c7_update_refetch_in_place
    [("b", ⟨["keep.txt"], some (.valid ⟨some "1.0.0", [], none⟩)⟩)] "b"
    ⟨[], some (.valid ⟨some "1.1.0", [], none⟩)⟩
    ⟨["keep.txt"], some (.valid ⟨some "1.0.0", [], none⟩)⟩
    ⟨some "1.0.0", [], none⟩ ⟨some "1.1.0", [], none⟩ "1.0.0" "1.1.0"
    [1, 0, 0] [1, 1, 0] rfl rfl rfl rfl rfl (by decide) rfl rfl

/-- C8 counterexample: fetching branch "x" whose tree carries no
pack.json into an empty packages directory: the manifest cannot be read,
yet get_branch_contents only logs a warning and returns True — the
resolution reports success with no readable manifest. -/
theorem c8_counterexample :
    get_branch_contents [] "x" ⟨[], none⟩ [] = ([("x", ⟨[], none⟩)], .pyTrue) := rfl

/-- C8 amended: a manifest decode failure aborts resolution with False,
but an absent manifest does not: when neither the remote tree nor the
pre-existing directory provides a pack.json, resolution returns True
with the dependency check silently skipped. -/
theorem c8_manifest_errors (fs : FS) (b : String) (resolved : List String)
    (rb1 rb2 : RemoteBranch) (h : b ∉ resolved)
    (h1 : rb1.packJson = some .invalid)
    (h2 : rb2.packJson = none) (h3 : readPackJson fs b = none) :
    (get_branch_contents fs b rb1 resolved).2 = .pyFalse ∧
    (get_branch_contents fs b rb2 resolved).2 = .pyTrue := by
  have hold : ((fsFind fs b).getD ⟨[], none⟩).packJson = none := by
    unfold readPackJson at h3
    cases hf : fsFind fs b with
    | none => simp
    | some d => rw [hf] at h3; simpa using h3
  have k1 : readPackJson (fetchBranch fs b rb1) b = some .invalid := by
    unfold fetchBranch
    rw [h1]
    simp [readPackJson, fsFind_fsSet_self]
  have k2 : readPackJson (fetchBranch fs b rb2) b = none := by
    unfold fetchBranch
    rw [h2]
    simp [readPackJson, fsFind_fsSet_self, hold]
  constructor
  · unfold get_branch_contents
    rw [if_neg h]
    simp [k1]
  · unfold get_branch_contents
    rw [if_neg h]
    simp [k2]

/-- Witness for the amended C8 at a concrete input. -/
theorem c8_witness :
    (get_branch_contents [] "x" ⟨[], some .invalid⟩ ["y"]).2 = .pyFalse ∧
    (get_branch_contents [] "x" ⟨[], none⟩ ["y"]).2 = .pyTrue :=
  c8_manifest_errors [] "x" ["y"] ⟨[], some .invalid⟩ ⟨[], none⟩ (by decide)
    rfl rfl rfl

/-- C9 (code bug): the already-resolved skip does not return success.
Resolving branch "a" with a resolved set that already holds "a" takes
the bare return path, producing None rather than True — and the install
caller checks the result for truthiness, so it would treat exactly this
skip as a failed install and roll back. -/
theorem c9_visited_skip_returns_none :
    get_branch_contents [] "a" ⟨[], none⟩ ["a"] = ([], .pyNone) ∧
      (PyReturn.pyNone ≠ PyReturn.pyTrue) := ⟨rfl, by decide⟩

/-- C10: dependency entries without a name key are skipped with no
existence, manifest or version check at all: a dependency list made only
of nameless entries passes the whole check, whatever the local packages
directory holds. -/
theorem c10_nameless_deps_skipped (fs : FS) (deps : List Dep)
    (h : ∀ d ∈ deps, d.name = none) :
    install_dependencies fs deps = some true := by
  induction deps with
  | nil => rfl
  | cons d rest ih =>
    have hd : d.name = none := h d (List.mem_cons_self d rest)
    rw [install_dependencies]
    rw [show depCheck fs d = some true by rw [depCheck, hd]]
    exact ih fun e he => h e (List.mem_cons_of_mem d he)

/-- Witness for C10 at a concrete input: two nameless entries in an empty
packages directory. -/
theorem c10_witness :
    install_dependencies [] [⟨none, some "1.0.0"⟩, ⟨none, none⟩] = some true :=
  c10_nameless_deps_skipped [] [⟨none, some "1.0.0"⟩, ⟨none, none⟩] (by decide)

end Winpack
